import Mathlib

/-!
Verification of the streaming response synchronization engine of the
`nova-chat` repository.

The embedding below translates the source files `src/pages/Chat.tsx`
(the streaming controller `handleSendMessage`, the render throttler
`updateDraftContentThrottled`, the image handler `handleImageRequest`) and
`src/hooks/useConversations.ts` (persistence helpers `addMessage`,
`createAssistantDraft`, `updateMessageContent`, and the realtime dedup
merge) into Lean.  Byte streams are modelled as lists of characters
(`TextDecoder` with `stream: true` is assumed to decode multi-byte
sequences split across chunks correctly, so chunking happens at character
granularity); collaborator results (database inserts, fetch responses,
abort timing) are supplied by an environment record, reflecting the
single-threaded event-loop semantics of the source.
-/

namespace NovaChat

/-! ## JavaScript JSON values

A model of the values produced by `JSON.parse`, together with the pieces of
JavaScript semantics the streaming loop relies on: truthiness
(`if (!delta) continue`), string coercion (`fullContent += delta`), property
access and optional chaining (`parsed.choices?.[0]?.delta?.content`). -/

inductive Json where
  | jnull
  | jbool (b : Bool)
  | jnum (lexeme : List Char)
  | jstr (s : List Char)
  | jarr (elems : List Json)
  | jobj (fields : List (String × Json))

/-- Last duplicate key wins, as in a JavaScript object literal. -/
def getField (fields : List (String × Json)) (k : String) : Option Json :=
  ((fields.filter (fun p => p.1 == k)).getLast?).map (·.2)

/-- JavaScript property access `v.k` for non-null values: objects look the
key up, everything else yields `undefined` (here `none`). -/
def jprop (v : Json) (k : String) : Option Json :=
  match v with
  | .jobj fs => getField fs k
  | _ => none

/-- JavaScript `v?.[0]`: array indexing, string indexing, or an object
lookup of the key `"0"`; other receivers yield `undefined`. -/
def idx0 (v : Json) : Option Json :=
  match v with
  | .jarr (x :: _) => some x
  | .jarr [] => none
  | .jstr (c :: _) => some (.jstr [c])
  | .jstr [] => none
  | .jobj fs => getField fs "0"
  | _ => none

/-- Optional chaining `a?.f`: `null`/`undefined` short-circuit to
`undefined`, otherwise the accessor runs. -/
def optChain (v : Option Json) (f : Json → Option Json) : Option Json :=
  match v with
  | none => none
  | some .jnull => none
  | some x => f x

/-- A JSON number is falsy exactly when its mantissa (the part before any
exponent) consists of zero digits only. -/
def numIsZero (lexeme : List Char) : Bool :=
  (lexeme.takeWhile (fun c => c != 'e' && c != 'E')).all
    (fun c => !c.isDigit || c == '0')

def jsTruthy (v : Json) : Bool :=
  match v with
  | .jnull => false
  | .jbool b => b
  | .jnum lexeme => !numIsZero lexeme
  | .jstr s => !s.isEmpty
  | .jarr _ => true
  | .jobj _ => true

/-- JavaScript string coercion, used by `fullContent += delta`.  The content
deltas of this protocol are JSON strings, for which the coercion is the
identity; for numbers the source lexeme stands in for JS number
formatting. -/
def jsToStr (v : Json) : List Char :=
  match v with
  | .jnull => "null".toList
  | .jbool true => "true".toList
  | .jbool false => "false".toList
  | .jnum lexeme => lexeme
  | .jstr s => s
  | .jarr elems => (List.intersperse [','] (elems.map fun e =>
      match e with
      | .jnull => []
      | x => jsToStrShallow x)).flatten
  | .jobj _ => "[object Object]".toList
where
  /-- One-level coercion for array elements (nested arrays rare and
  irrelevant to the protocol). -/
  jsToStrShallow : Json → List Char
  | .jnull => "null".toList
  | .jbool true => "true".toList
  | .jbool false => "false".toList
  | .jnum lexeme => lexeme
  | .jstr s => s
  | .jarr _ => []
  | .jobj _ => "[object Object]".toList

/-! ## A JSON parser (`JSON.parse`)

Fuel-indexed recursive-descent parser for the JSON grammar; `none` models
the `SyntaxError` thrown by `JSON.parse`, which the streaming loop catches
and answers by re-buffering the line. -/

def isJsonWs (c : Char) : Bool :=
  match c with
  | ' ' | '\t' | '\n' | '\r' => true
  | _ => false

def skipWs (cs : List Char) : List Char := cs.dropWhile isJsonWs

def hexVal (c : Char) : Option Nat :=
  let n := c.toNat
  if 48 ≤ n && n ≤ 57 then some (n - 48)        -- '0'..'9'
  else if 97 ≤ n && n ≤ 102 then some (n - 87)  -- 'a'..'f'
  else if 65 ≤ n && n ≤ 70 then some (n - 55)   -- 'A'..'F'
  else none

def parseHex4 (cs : List Char) : Option (Nat × List Char) :=
  match cs with
  | a :: b :: c :: d :: rest =>
    match hexVal a, hexVal b, hexVal c, hexVal d with
    | some x, some y, some z, some w => some (((x * 16 + y) * 16 + z) * 16 + w, rest)
    | _, _, _, _ => none
  | _ => none

/-- String body after the opening quote; strict JSON rejects raw control
characters below U+0020. -/
def parseStrBody (fuel : Nat) (acc : List Char) (cs : List Char) :
    Option (List Char × List Char) :=
  match fuel, cs with
  | 0, _ => none
  | _, [] => none
  | fuel + 1, c :: rest =>
    if c = '"' then some (acc.reverse, rest)
    else if c = '\\' then
      match rest with
      | [] => none
      | e :: rest2 =>
        if e = '"' then parseStrBody fuel ('"' :: acc) rest2
        else if e = '\\' then parseStrBody fuel ('\\' :: acc) rest2
        else if e = '/' then parseStrBody fuel ('/' :: acc) rest2
        else if e = 'b' then parseStrBody fuel ('\x08' :: acc) rest2
        else if e = 'f' then parseStrBody fuel ('\x0c' :: acc) rest2
        else if e = 'n' then parseStrBody fuel ('\n' :: acc) rest2
        else if e = 'r' then parseStrBody fuel ('\r' :: acc) rest2
        else if e = 't' then parseStrBody fuel ('\t' :: acc) rest2
        else if e = 'u' then
          match parseHex4 rest2 with
          | some (n, rest3) => parseStrBody fuel (Char.ofNat n :: acc) rest3
          | none => none
        else none
    else if c.toNat < 0x20 then none
    else parseStrBody fuel (c :: acc) rest

/-- Number lexeme: `-? (0 | [1-9][0-9]*) (. [0-9]+)? ([eE][+-]?[0-9]+)?`. -/
def parseNumLex (cs : List Char) : Option (List Char × List Char) :=
  let (sign, cs1) :=
    match cs with
    | '-' :: rest => (['-'], rest)
    | _ => ([], cs)
  match cs1 with
  | [] => none
  | c :: _ =>
    if !c.isDigit then none
    else
      let (intPart, cs2) :=
        if c = '0' then ([c], cs1.tail)
        else (cs1.takeWhile Char.isDigit, cs1.dropWhile Char.isDigit)
      let (fracPart, cs3) :=
        match cs2 with
        | '.' :: d :: rest =>
          if d.isDigit then
            ('.' :: (d :: rest).takeWhile Char.isDigit,
             (d :: rest).dropWhile Char.isDigit)
          else ([], cs2)
        | _ => ([], cs2)
      if cs3 ≠ cs2 && fracPart = [] then none
      else
        match cs3 with
        | e :: rest4 =>
          if e = 'e' || e = 'E' then
            let (esign, rest5) :=
              match rest4 with
              | '+' :: r => (['+'], r)
              | '-' :: r => (['-'], r)
              | _ => ([], rest4)
            match rest5 with
            | d :: _ =>
              if d.isDigit then
                some (sign ++ intPart ++ fracPart ++ e :: esign ++
                        rest5.takeWhile Char.isDigit,
                      rest5.dropWhile Char.isDigit)
              else none
            | [] => none
          else some (sign ++ intPart ++ fracPart, cs3)
        | [] => some (sign ++ intPart ++ fracPart, cs3)

mutual

def parseVal (fuel : Nat) (cs : List Char) : Option (Json × List Char) :=
  match fuel with
  | 0 => none
  | fuel + 1 =>
    let cs := skipWs cs
    match cs with
    | [] => none
    | '{' :: rest => parseObjBody fuel (skipWs rest) true
    | '[' :: rest => parseArrBody fuel (skipWs rest) true
    | '"' :: rest =>
      match parseStrBody (rest.length + 1) [] rest with
      | some (s, rest2) => some (.jstr s, rest2)
      | none => none
    | 't' :: 'r' :: 'u' :: 'e' :: rest => some (.jbool true, rest)
    | 'f' :: 'a' :: 'l' :: 's' :: 'e' :: rest => some (.jbool false, rest)
    | 'n' :: 'u' :: 'l' :: 'l' :: rest => some (.jnull, rest)
    | _ =>
      match parseNumLex cs with
      | some (lexeme, rest) => some (.jnum lexeme, rest)
      | none => none

/-- Object members after `{` (whitespace already skipped); `first` marks
whether no member has been read yet. -/
def parseObjBody (fuel : Nat) (cs : List Char) (first : Bool) :
    Option (Json × List Char) :=
  match fuel with
  | 0 => none
  | fuel + 1 =>
    match cs with
    | '}' :: rest => if first then some (.jobj [], rest) else none
    | _ =>
      match parseMembers fuel cs with
      | some (fields, rest) => some (.jobj fields, rest)
      | none => none

def parseMembers (fuel : Nat) (cs : List Char) :
    Option (List (String × Json) × List Char) :=
  match fuel with
  | 0 => none
  | fuel + 1 =>
    match cs with
    | '"' :: rest =>
      match parseStrBody (rest.length + 1) [] rest with
      | some (key, rest2) =>
        match skipWs rest2 with
        | ':' :: rest3 =>
          match parseVal fuel rest3 with
          | some (v, rest4) =>
            match skipWs rest4 with
            | ',' :: rest5 =>
              match parseMembers fuel (skipWs rest5) with
              | some (fields, rest6) => some ((⟨key⟩, v) :: fields, rest6)
              | none => none
            | '}' :: rest5 => some ([(⟨key⟩, v)], rest5)
            | _ => none
          | none => none
        | _ => none
      | none => none
    | _ => none

/-- Array elements after `[` (whitespace already skipped). -/
def parseArrBody (fuel : Nat) (cs : List Char) (first : Bool) :
    Option (Json × List Char) :=
  match fuel with
  | 0 => none
  | fuel + 1 =>
    match cs with
    | ']' :: rest => if first then some (.jarr [], rest) else none
    | _ =>
      match parseElems fuel cs with
      | some (elems, rest) => some (.jarr elems, rest)
      | none => none

def parseElems (fuel : Nat) (cs : List Char) :
    Option (List Json × List Char) :=
  match fuel with
  | 0 => none
  | fuel + 1 =>
    match parseVal fuel cs with
    | some (v, rest) =>
      match skipWs rest with
      | ',' :: rest2 =>
        match parseElems fuel rest2 with
        | some (elems, rest3) => some (v :: elems, rest3)
        | none => none
      | ']' :: rest2 => some ([v], rest2)
      | _ => none
    | none => none

end

/-- `JSON.parse`: a full value with nothing but whitespace after it. -/
def parseJson (cs : List Char) : Option Json :=
  match parseVal (4 * cs.length + 16) cs with
  | some (v, rest) => if skipWs rest = [] then some v else none
  | none => none

/-! ## Frame Parser (the SSE decode loop of `handleSendMessage`)

```
while ((newlineIndex = textBuffer.indexOf('\n')) !== -1) {
  let line = textBuffer.slice(0, newlineIndex);
  textBuffer = textBuffer.slice(newlineIndex + 1);
  if (line.endsWith('\r')) line = line.slice(0, -1);
  if (line.startsWith(':') || line.trim() === '') continue;
  if (!line.startsWith('data: ')) continue;
  const jsonStr = line.slice(6).trim();
  if (jsonStr === '[DONE]') continue;
  try {
    const parsed = JSON.parse(jsonStr);
    const delta = parsed.choices?.[0]?.delta?.content;
    if (!delta) continue;
    fullContent += delta;
    updateDraftContentThrottled(draft.id, fullContent);
  } catch \x7b
    textBuffer = line + '\n' + textBuffer;
    break;
  \x7d
}
```
-/

/-- `textBuffer.indexOf('\n')` / the two slices: the first line and the
remainder, or `none` when the buffer holds no newline. -/
def splitAtNewline (buf : List Char) : Option (List Char × List Char) :=
  match buf with
  | [] => none
  | c :: cs =>
    if c = '\n' then some ([], cs)
    else
      match splitAtNewline cs with
      | none => none
      | some (l, r) => some (c :: l, r)

/-- `if (line.endsWith('\r')) line = line.slice(0, -1)` -/
def stripCR (l : List Char) : List Char :=
  if l.getLast? = some '\r' then l.dropLast else l

/-- `String.prototype.trim` restricted to the whitespace characters that can
occur in this protocol. -/
def trimRightCs (l : List Char) : List Char :=
  (l.reverse.dropWhile isJsonWs).reverse

def jsTrim (l : List Char) : List Char :=
  (trimRightCs l).dropWhile isJsonWs

/-- `line.startsWith('data: ')` -/
def hasDataTag (l : List Char) : Bool :=
  l.take 6 == "data: ".toList

/-- `parsed.choices?.[0]?.delta?.content`, with the initial unguarded
property access: on `null` JavaScript throws a `TypeError`, which the
surrounding `try` turns into a re-buffer. -/
def deltaOfJson (j : Json) : Except Unit (Option Json) :=
  match j with
  | .jnull => .error ()
  | _ =>
    .ok (optChain (optChain (optChain (some j) (fun v => jprop v "choices")) idx0)
          (fun v => jprop v "delta") |>.bind fun d => optChain (some d) (fun v => jprop v "content"))

/-- What the loop body does with one complete, `\r`-stripped line. -/
inductive LineAct where
  | skip
  | emit (d : List Char)
  | retry
  deriving DecidableEq

def classifyCore (l : List Char) : LineAct :=
  if l.head? == some ':' || jsTrim l == [] then .skip
  else if !hasDataTag l then .skip
  else
    let jsonStr := jsTrim (l.drop 6)
    if jsonStr == "[DONE]".toList then .skip
    else
      match parseJson jsonStr with
      | none => .retry
      | some j =>
        match deltaOfJson j with
        | .error () => .retry
        | .ok none => .skip
        | .ok (some v) => if jsTruthy v then .emit (jsToStr v) else .skip

/-- One run of the inner `while` loop: extract complete lines until the
buffer holds none (or a failed parse re-buffers the line and breaks).
Fuel bounds the number of iterations; the newline count of the buffer is
always enough (`drain_fuel_irrel`). -/
def drain (fuel : Nat) (buf : List Char) : List Char × List (List Char) :=
  match fuel with
  | 0 => (buf, [])
  | fuel + 1 =>
    match splitAtNewline buf with
    | none => (buf, [])
    | some (line, rest) =>
      let l := stripCR line
      match classifyCore l with
      | .skip => drain fuel rest
      | .emit d =>
        let r := drain fuel rest
        (r.1, d :: r.2)
      | .retry => (l ++ '\n' :: rest, [])

def countNL (l : List Char) : Nat := l.count '\n'

def drainAll (buf : List Char) : List Char × List (List Char) :=
  drain (countNL buf) buf

/-- The outer `while (true)` read loop: each arriving chunk is appended to
the buffer and the inner loop runs; when the stream ends (`done`) any
leftover buffer is dropped. -/
def feedChunks (buf : List Char) (chunks : List (List Char)) : List (List Char) :=
  match chunks with
  | [] => []
  | c :: cs =>
    let r := drainAll (buf ++ c)
    r.2 ++ feedChunks r.1 cs

/-- The delta sequence the Frame Parser produces from a chunked stream. -/
def parseSSE (chunks : List (List Char)) : List (List Char) :=
  feedChunks [] chunks

/-! ## Chunk-boundary independence of the Frame Parser -/

lemma not_mem_of_splitAtNewline_eq_none (buf : List Char)
    (h : splitAtNewline buf = none) : '\n' ∉ buf := by
  induction buf with
  | nil => simp
  | cons c cs ih =>
    by_cases hc : c = '\n'
    · subst hc
      simp [splitAtNewline] at h
    · simp only [splitAtNewline, if_neg hc] at h
      cases hsplit : splitAtNewline cs with
      | none =>
        have hcs := ih hsplit
        simp only [List.mem_cons]
        rintro (h1 | h2)
        · exact hc h1.symm
        · exact hcs h2
      | some p => rw [hsplit] at h; simp at h

lemma splitAtNewline_eq_some (buf l r : List Char)
    (h : splitAtNewline buf = some (l, r)) :
    buf = l ++ '\n' :: r ∧ '\n' ∉ l := by
  induction buf generalizing l r with
  | nil => cases h
  | cons c cs ih =>
    by_cases hc : c = '\n'
    · subst hc
      simp only [splitAtNewline, if_pos rfl, Option.some.injEq, Prod.mk.injEq] at h
      obtain ⟨rfl, rfl⟩ := h
      simp
    · simp only [splitAtNewline, if_neg hc] at h
      cases hsplit : splitAtNewline cs with
      | none => rw [hsplit] at h; simp at h
      | some p =>
        obtain ⟨l', r'⟩ := p
        rw [hsplit] at h
        simp only [Option.some.injEq, Prod.mk.injEq] at h
        obtain ⟨rfl, rfl⟩ := h
        obtain ⟨heq, hmem⟩ := ih l' r' hsplit
        subst heq
        refine ⟨by simp, ?_⟩
        simp only [List.mem_cons]
        rintro (h1 | h2)
        · exact hc h1.symm
        · exact hmem h2

lemma splitAtNewline_mk (l r : List Char) (h : '\n' ∉ l) :
    splitAtNewline (l ++ '\n' :: r) = some (l, r) := by
  induction l with
  | nil => simp [splitAtNewline]
  | cons c cs ih =>
    have hc : c ≠ '\n' := by intro hcc; exact h (by simp [hcc])
    have hcs : '\n' ∉ cs := fun hin => h (by simp [hin])
    simp [splitAtNewline, if_neg hc, ih hcs]

lemma countNL_append_nl (l r : List Char) (h : '\n' ∉ l) :
    countNL (l ++ '\n' :: r) = countNL r + 1 := by
  unfold countNL
  rw [List.count_append, List.count_cons]
  have : l.count '\n' = 0 := List.count_eq_zero.mpr h
  simp [this]

lemma not_mem_stripCR (l : List Char) (h : '\n' ∉ l) : '\n' ∉ stripCR l := by
  unfold stripCR
  split
  · exact fun hin => h (List.dropLast_sublist l |>.mem hin)
  · exact h

lemma drainAll_no_nl (x : List Char) (h : '\n' ∉ x) : drainAll x = (x, []) := by
  unfold drainAll
  have : countNL x = 0 := List.count_eq_zero.mpr h
  rw [this]
  rfl

lemma drainAll_cons (line rest : List Char) (h : '\n' ∉ line) :
    drainAll (line ++ '\n' :: rest) =
      match classifyCore (stripCR line) with
      | .skip => drainAll rest
      | .emit d => ((drainAll rest).1, d :: (drainAll rest).2)
      | .retry => (stripCR line ++ '\n' :: rest, []) := by
  unfold drainAll
  rw [countNL_append_nl line rest h]
  rw [drain]
  rw [splitAtNewline_mk line rest h]

lemma jsTrim_append_cr (l : List Char) : jsTrim (l ++ ['\r']) = jsTrim l := by
  unfold jsTrim trimRightCs
  rw [List.reverse_append]
  simp [List.dropWhile_cons, isJsonWs]

lemma classifyCore_append_cr (M : List Char) :
    classifyCore (M ++ ['\r']) = classifyCore M := by
  cases M with
  | nil => decide
  | cons c M' =>
    have htrim : jsTrim ((c :: M') ++ ['\r']) = jsTrim (c :: M') := jsTrim_append_cr _
    have hhead : ((c :: M') ++ ['\r']).head? = (c :: M').head? := rfl
    by_cases h6 : 6 ≤ (c :: M').length
    · have htag : hasDataTag ((c :: M') ++ ['\r']) = hasDataTag (c :: M') := by
        unfold hasDataTag
        rw [List.take_append_of_le_length h6]
      have hdrop : ((c :: M') ++ ['\r']).drop 6 = (c :: M').drop 6 ++ ['\r'] :=
        List.drop_append_of_le_length h6
      unfold classifyCore
      rw [hhead, htrim, htag, hdrop, jsTrim_append_cr]
    · have hlen : M'.length + 1 < 6 := by
        simp only [List.length_cons] at h6
        omega
      have htagl : hasDataTag (c :: M') = false := by
        have hle : (c :: M').length ≤ 6 := by
          simp only [List.length_cons]
          omega
        have htake : List.take 6 (c :: M') = c :: M' :=
          List.take_of_length_le hle
        unfold hasDataTag
        rw [htake, beq_eq_false_iff_ne]
        intro heq
        have := congrArg List.length heq
        simp at this
        omega
      have htagr : hasDataTag ((c :: M') ++ ['\r']) = false := by
        have hle : ((c :: M') ++ ['\r']).length ≤ 6 := by
          simp only [List.length_append, List.length_cons, List.length_nil]
          omega
        have htake : List.take 6 ((c :: M') ++ ['\r']) = (c :: M') ++ ['\r'] :=
          List.take_of_length_le hle
        unfold hasDataTag
        rw [htake, beq_eq_false_iff_ne]
        intro heq
        have h2 : ((c :: M') ++ ['\r']).getLast? = some '\r' := List.getLast?_concat _
        rw [heq] at h2
        exact absurd h2 (by decide)
      unfold classifyCore
      rw [hhead, htrim, htagl, htagr]
      simp

lemma classifyCore_stripCR (l : List Char) :
    classifyCore (stripCR l) = classifyCore l := by
  unfold stripCR
  split
  case isTrue h =>
    rcases List.eq_nil_or_concat l with hnil | ⟨l', a, hconcat⟩
    · subst hnil; cases h
    · subst hconcat
      rw [List.concat_eq_append] at h ⊢
      have ha : a = '\r' := by
        rw [List.getLast?_concat] at h
        exact Option.some_inj.mp h
      subst ha
      rw [List.dropLast_concat]
      exact (classifyCore_append_cr l').symm
  case isFalse h => rfl

/-- Appending more input to a buffer extends the emitted delta sequence of a
full drain: what was already emitted is unchanged, and the continuation
drains the leftover buffer with the new input appended. -/
lemma drainAll_append_em :
    ∀ (n : Nat) (x : List Char), countNL x ≤ n → ∀ (y : List Char),
      (drainAll (x ++ y)).2 =
        (drainAll x).2 ++ (drainAll ((drainAll x).1 ++ y)).2 := by
  intro n
  induction n with
  | zero =>
    intro x hx y
    have hnn : '\n' ∉ x := by
      rw [← List.count_eq_zero]
      have : countNL x = 0 := Nat.le_zero.mp hx
      exact this
    rw [drainAll_no_nl x hnn]
    simp
  | succ n ih =>
    intro x hx y
    cases hsplit : splitAtNewline x with
    | none =>
      have hnn : '\n' ∉ x := not_mem_of_splitAtNewline_eq_none x hsplit
      rw [drainAll_no_nl x hnn]
      simp
    | some p =>
      obtain ⟨line, rest⟩ := p
      obtain ⟨hx_eq, hline⟩ := splitAtNewline_eq_some x line rest hsplit
      subst hx_eq
      have hrest : countNL rest ≤ n := by
        have := countNL_append_nl line rest hline
        omega
      have hasc : (line ++ '\n' :: rest) ++ y = line ++ '\n' :: (rest ++ y) := by
        simp
      rw [hasc, drainAll_cons line (rest ++ y) hline, drainAll_cons line rest hline]
      cases hcl : classifyCore (stripCR line) with
      | skip =>
        simp only
        exact ih rest hrest y
      | emit d =>
        simp only [List.cons_append]
        rw [ih rest hrest y]
      | retry =>
        simp only [List.nil_append]
        have hasc2 : (stripCR line ++ '\n' :: rest) ++ y =
            stripCR line ++ '\n' :: (rest ++ y) := by simp
        rw [hasc2, drainAll_cons (stripCR line) (rest ++ y) (not_mem_stripCR line hline)]
        rw [classifyCore_stripCR, hcl]

lemma drainAll_append_em' (x y : List Char) :
    (drainAll (x ++ y)).2 =
      (drainAll x).2 ++ (drainAll ((drainAll x).1 ++ y)).2 :=
  drainAll_append_em (countNL x) x (Nat.le_refl _) y

/-- A buffer left behind by a drain is quiescent: draining it again without
new input emits nothing. -/
lemma drainAll_post_quiescent (x : List Char) :
    (drainAll ((drainAll x).1)).2 = [] := by
  have h := drainAll_append_em' x []
  simp only [List.append_nil] at h
  have hlen := congrArg List.length h
  simp only [List.length_append] at hlen
  have : ((drainAll (drainAll x).1).2).length = 0 := by omega
  exact List.eq_nil_of_length_eq_zero this

lemma feedChunks_eq_drainAll (cs : List (List Char)) :
    ∀ (b : List Char), (drainAll b).2 = [] →
      feedChunks b cs = (drainAll (b ++ cs.flatten)).2 := by
  induction cs with
  | nil =>
    intro b hb
    simp only [feedChunks, List.flatten_nil, List.append_nil]
    exact hb.symm
  | cons c cs ih =>
    intro b hb
    simp only [feedChunks, List.flatten_cons]
    rw [ih (drainAll (b ++ c)).1 (drainAll_post_quiescent (b ++ c))]
    rw [← drainAll_append_em' (b ++ c) cs.flatten]
    rw [List.append_assoc]

/-- C1: Frame Parser chunk-boundary independence.  For every character
stream and every way of splitting it into chunks, the delta sequence the
parser produces equals the one produced from the unsplit stream; in
particular a single `data: {...}` payload line split into two chunks at any
offset yields exactly the same single delta as the unsplit line.  The
parser is a total function (it never throws), and data is never dropped on
account of a chunk boundary: a parse failure re-inserts the line at the
front of the buffer with its newline restored (`classifyCore`'s `retry`
branch of `drain`). -/
theorem frame_parser_chunk_boundary_independence :
    (∀ chunks : List (List Char), parseSSE chunks = parseSSE [chunks.flatten]) ∧
    (∀ (s : List Char) (i : Nat) (d : List Char),
       parseSSE [s] = [d] → parseSSE [s.take i, s.drop i] = [d]) := by
  have hq : (drainAll ([] : List Char)).2 = [] := by
    rw [drainAll_no_nl [] (by simp)]
  have hmain : ∀ chunks : List (List Char), parseSSE chunks = parseSSE [chunks.flatten] := by
    intro chunks
    unfold parseSSE
    rw [feedChunks_eq_drainAll chunks [] hq, feedChunks_eq_drainAll [chunks.flatten] [] hq]
    simp
  refine ⟨hmain, ?_⟩
  intro s i d h
  have hjoin : ([s.take i, s.drop i] : List (List Char)).flatten = s := by
    simp
  rw [hmain [s.take i, s.drop i], hjoin]
  exact h

/-- The concrete payload of the spec's own two-chunk scenario. -/
def c1PayloadW : List Char :=
  "data: \x7b\"choices\":[\x7b\"delta\":\x7b\"content\":\"Hi\"\x7d\x7d]\x7d\n".toList

theorem frame_parser_chunk_boundary_independence_witness :
    parseSSE [c1PayloadW] = ["Hi".toList] ∧
    parseSSE [c1PayloadW.take 12, c1PayloadW.drop 12] = ["Hi".toList] :=
  ⟨by decide,
   frame_parser_chunk_boundary_independence.2 c1PayloadW 12 "Hi".toList (by decide)⟩

/-! ## Data model and persistence collaborator (`src/types/chat.ts`,
`src/hooks/useConversations.ts`) -/

/-- A message row as in `interface Message`; `metadata` is the JSON column
(`Record<string, unknown> | null`). -/
structure Message where
  id : String
  conversation_id : String
  role : String
  content : String
  content_type : String
  metadata : Option Json
  created_at : String

/-- The `{ draft: true }` marker written by `createAssistantDraft`. -/
def draftMarker : Json := .jobj [("draft", .jbool true)]

/-- Whether a row still carries a truthy `metadata.draft` marker. -/
def isDraftMarked (m : Message) : Bool :=
  match m.metadata with
  | some (.jobj fs) =>
    match getField fs "draft" with
    | some (.jbool b) => b
    | _ => false
  | _ => false

/-- The row inserted by `addMessage(role, content, contentType)`: no
metadata column is supplied, so it is stored as `null`.  The database
assigns `id` and `created_at`. -/
def mkInsertedMessage (convId role content contentType id createdAt : String) : Message :=
  { id := id
    conversation_id := convId
    role := role
    content := content
    content_type := contentType
    metadata := none
    created_at := createdAt }

/-- The row inserted by `createAssistantDraft`: empty content, `text`
content-type, metadata `{ draft: true }`. -/
def mkDraftMessage (convId id createdAt : String) : Message :=
  { id := id
    conversation_id := convId
    role := "assistant"
    content := ""
    content_type := "text"
    metadata := some draftMarker
    created_at := createdAt }

/-- The database effect of
`supabase.from('messages').update({ content, metadata: null }).eq('id', messageId)`:
one update call writing the final content and clearing the draft marker
together. -/
def dbFinalize (db : List Message) (messageId content : String) : List Message :=
  db.map fun m =>
    if m.id == messageId then { m with content := content, metadata := none } else m

/-- The local effect of `updateMessageContent`'s
`setMessages(prev => prev.map(m => (m.id === messageId ? { ...m, content } : m)))`:
only the `content` field changes. -/
def localSetContent (msgs : List Message) (messageId content : String) : List Message :=
  msgs.map fun m =>
    if m.id == messageId then { m with content := content } else m

/-- `updateMessageContent(messageId, content)` from `useConversations`:
the database update runs first; when it fails the function returns `false`
from its `catch` without touching local state.  `dbOk` is the collaborator
verdict on the update. -/
def updateMessageContent (dbOk : Bool) (db msgs : List Message)
    (messageId content : String) : List Message × List Message × Bool :=
  if dbOk then
    (dbFinalize db messageId content, localSetContent msgs messageId content, true)
  else
    (db, msgs, false)

/-- The realtime INSERT handler of `useConversations`:
`if (prev.some(m => m.id === newMessage.id)) return prev; return [...prev, newMessage]`. -/
def mergeInsertMessage (prev : List Message) (newMessage : Message) : List Message :=
  if prev.any (fun m => m.id == newMessage.id) then prev
  else prev ++ [newMessage]

/-! ## Render Scheduler (`updateDraftContentThrottled`)

```
latestContentRef.current = content;
if (rafRef.current) return;
rafRef.current = requestAnimationFrame(() => {
  rafRef.current = null;
  const next = latestContentRef.current;
  setMessages(prev => prev.map(m => (m.id === messageId ? { ...m, content: next } : m)));
});
```
-/

structure SchedState where
  latest : String
  rafPending : Bool
  displayed : String

inductive SchedEvent where
  | upd (v : String)
  | tick

/-- One event: a content update (store the latest value, schedule a frame if
none is pending — zero UI writes), or a display-frame tick (apply the
latest value if a frame was scheduled — at most one UI write). -/
def schedStep (s : SchedState) (e : SchedEvent) : SchedState × Nat :=
  match e with
  | .upd v => ({ s with latest := v, rafPending := true }, 0)
  | .tick =>
    if s.rafPending then
      ({ s with rafPending := false, displayed := s.latest }, 1)
    else (s, 0)

/-- State evolution over a trace of updates and frame ticks. -/
def schedRunState (s : SchedState) (es : List SchedEvent) : SchedState :=
  es.foldl (fun st e => (schedStep st e).1) s

/-! ## Draft Lifecycle Controller (`handleSendMessage`)

The environment supplies every collaborator verdict the single-threaded
event loop can observe: whether the guard flag is up, how conversation
resolution goes, the ids the database assigns to the two inserts, the
fetch response, the chunked body, the point (in completed reads) at which
an abort fires, and the verdict of the finalize update. -/

inductive FetchResult where
  | netError
  | httpRes (status : Nat) (hasBody : Bool) (chunks : List (List Char))

structure SendEnv where
  isStreaming0 : Bool
  streamingId0 : Option String
  currentConversationId : Option String
  createConversationId : Option String
  content : String
  userInsertRow : Option (String × String)
  draftInsertRow : Option (String × String)
  fetchResult : FetchResult
  cancelAtChunk : Option Nat
  finalizeDbOk : Bool
  initDb : List Message
  initMessages : List Message

structure SendOutcome where
  userInsertCalled : Bool
  draftInsertCalled : Bool
  networkCalled : Bool
  deltas : List String
  fullContent : String
  finalizeCalls : Nat
  finalizeSucceeded : Bool
  localFinalApplied : Bool
  db : List Message
  messages : List Message
  toasts : List (String × String)
  isStreamingFinal : Bool
  streamingIdFinal : Option String
  abortRefSet : Bool
  abortErrorCaught : Bool

/-- `fullContent += delta`, over the in-order delta list. -/
def accumulate (deltas : List String) : String :=
  deltas.foldl (fun acc d => acc ++ d) ""

def toastDraftError : String × String :=
  ("Error", "Failed to create assistant message. Please try again.")
def toastRateLimited : String × String :=
  ("Rate Limited", "Too many requests. Please wait a moment and try again.")
def toastCredits : String × String :=
  ("Credits Required", "Please add credits to your workspace to continue.")
def toastGenericSend : String × String :=
  ("Error", "Failed to get AI response. Please try again.")

def sendNoOp (env : SendEnv) : SendOutcome :=
  { userInsertCalled := false
    draftInsertCalled := false
    networkCalled := false
    deltas := []
    fullContent := ""
    finalizeCalls := 0
    finalizeSucceeded := false
    localFinalApplied := false
    db := env.initDb
    messages := env.initMessages
    toasts := []
    isStreamingFinal := env.isStreaming0
    streamingIdFinal := env.streamingId0
    abortRefSet := false
    abortErrorCaught := false }

/-- Whether the abort (fired after `i` completed reads) interrupts the
ok-status read loop over `chunks`. -/
def cancelHits (cancelAtChunk : Option Nat) (numChunks : Nat) : Bool :=
  match cancelAtChunk with
  | some i => i ≤ numChunks
  | none => false

/-- State of the database and local list after
`await addMessage('user', content, 'text', conversationId)`, whose result is
not checked by the caller; a fresh conversation arrives with an empty local
list (`createConversation` ran `setMessages([])`). -/
def afterUserInsert (env : SendEnv) (convId : String) : List Message × List Message :=
  let msgs0 := if env.currentConversationId.isSome then env.initMessages else []
  match env.userInsertRow with
  | some (uid, uts) =>
    let m := mkInsertedMessage convId "user" env.content "text" uid uts
    (env.initDb ++ [m], msgs0 ++ [m])
  | none => (env.initDb, msgs0)

/-- Outcome skeleton once the user-message insert has been attempted. -/
def sendUserState (env : SendEnv) (convId : String) : SendOutcome :=
  { sendNoOp env with
    userInsertCalled := true
    draftInsertCalled := true
    db := (afterUserInsert env convId).1
    messages := (afterUserInsert env convId).2
    isStreamingFinal := false
    streamingIdFinal := none }

/-- Outcome skeleton once the draft is created (`createAssistantDraft`
appends with its own duplicate check) and the fetch has been issued. -/
def sendStreamState (env : SendEnv) (convId did dts : String) : SendOutcome :=
  let draftMsg := mkDraftMessage convId did dts
  let p := afterUserInsert env convId
  { sendUserState env convId with
    networkCalled := true
    db := p.1 ++ [draftMsg]
    messages := if p.2.any (fun m => m.id == did) then p.2 else p.2 ++ [draftMsg] }

/-- The tail of the success path: the byte stream ended normally
(`done`), so `if (fullContent) await updateMessageContent(draft.id,
fullContent)`. -/
def normalEndStep (finalizeDbOk : Bool) (st : SendOutcome) (did : String)
    (chunks : List (List Char)) : SendOutcome :=
  let ds := (parseSSE chunks).map (fun d => String.mk d)
  let full := accumulate ds
  if full ≠ "" then
    let r := updateMessageContent finalizeDbOk st.db st.messages did full
    { st with
      deltas := ds
      fullContent := full
      finalizeCalls := 1
      finalizeSucceeded := r.2.2
      localFinalApplied := r.2.2
      db := r.1
      messages := r.2.1 }
  else
    { st with deltas := ds, fullContent := full }

def runSend (env : SendEnv) : SendOutcome :=
  -- if (isStreaming) return;
  if env.isStreaming0 then sendNoOp env
  else
    -- resolve / create the conversation
    match (match env.currentConversationId with
           | some c => some c
           | none => env.createConversationId) with
    | none => sendNoOp env
    | some convId =>
      -- const draft = await createAssistantDraft(conversationId);
      match env.draftInsertRow with
      | none =>
        -- if (!draft) { toast(...); return; }
        { sendUserState env convId with toasts := [toastDraftError] }
      | some (did, dts) =>
        -- setIsStreaming(true); setStreamingMessageId(draft.id);
        -- abortRef.current = controller;  try { await fetch(...) ... }
        let st := sendStreamState env convId did dts
        if env.cancelAtChunk = some 0 then
          -- abort during fetch / before the first read: AbortError, no toast
          { st with abortErrorCaught := true }
        else
          match env.fetchResult with
          | .netError => { st with toasts := [toastGenericSend] }
          | .httpRes status hasBody chunks =>
            if !(200 ≤ status && status < 300) then
              if status = 429 then { st with toasts := [toastRateLimited] }
              else if status = 402 then { st with toasts := [toastCredits] }
              else { st with toasts := [toastGenericSend] }
            else if !hasBody then { st with toasts := [toastGenericSend] }
            else if cancelHits env.cancelAtChunk chunks.length then
              -- AbortError surfaces from the pending read after `i` chunks
              let readChunks := chunks.take ((env.cancelAtChunk).getD 0)
              let ds := (parseSSE readChunks).map (fun d => String.mk d)
              { st with
                deltas := ds
                fullContent := accumulate ds
                abortErrorCaught := true }
            else
              -- stream ends normally
              normalEndStep env.finalizeDbOk st did chunks

/-! ## The cancel operation (`abortRef.current?.abort()`) -/

structure AbortRefState where
  ctrl : Option Bool

/-- `abortRef.current?.abort()`: a no-op when no controller is installed,
otherwise the installed controller becomes (or stays) aborted. -/
def cancelRef (r : AbortRefState) : AbortRefState :=
  match r.ctrl with
  | none => r
  | some _ => ⟨some true⟩

/-! ## `handleImageRequest` -/

structure ImageEnv where
  isStreaming0 : Bool
  currentConversationId : Option String
  createConversationId : Option String
  prompt : String
  userInsertRow : Option (String × String)
  invokeResult : Option (Option String)
  assistantInsertRow : Option (String × String)
  initDb : List Message
  initMessages : List Message

structure ImageOutcome where
  userInsertCalled : Bool
  invokeCalled : Bool
  assistantInsertCalled : Bool
  db : List Message
  messages : List Message
  toasts : List (String × String)
  isStreamingFinal : Bool

def toastGenericImage : String × String :=
  ("Error", "Failed to generate image. Please try again.")

def imageNoOp (env : ImageEnv) : ImageOutcome :=
  { userInsertCalled := false
    invokeCalled := false
    assistantInsertCalled := false
    db := env.initDb
    messages := env.initMessages
    toasts := []
    isStreamingFinal := env.isStreaming0 }

def runImage (env : ImageEnv) : ImageOutcome :=
  -- if (isStreaming) return;
  if env.isStreaming0 then imageNoOp env
  else
    match (match env.currentConversationId with
           | some c => some c
           | none => env.createConversationId) with
    | none => imageNoOp env
    | some convId =>
      -- a successful createConversation resets local messages (`setMessages([])`)
      let msgs0 := if env.currentConversationId.isSome then env.initMessages else []
      -- await addMessage('user', `Generate image: ...`); setIsStreaming(true);
      let afterUser :=
        match env.userInsertRow with
        | some (uid, uts) =>
          let m := mkInsertedMessage convId "user" ("Generate image: " ++ env.prompt)
                     "text" uid uts
          (env.initDb ++ [m], msgs0 ++ [m])
        | none => (env.initDb, msgs0)
      let base := { imageNoOp env with
        userInsertCalled := true
        invokeCalled := true
        db := afterUser.1
        messages := afterUser.2
        isStreamingFinal := false }
      match env.invokeResult with
      | none => { base with toasts := [toastGenericImage] }
      | some none => base
      | some (some url) =>
        match env.assistantInsertRow with
        | some (aid, ats) =>
          let m := mkInsertedMessage convId "assistant" url "image" aid ats
          { base with
            assistantInsertCalled := true
            db := afterUser.1 ++ [m]
            messages := afterUser.2 ++ [m] }
        | none => { base with assistantInsertCalled := true }

/-! ## Claim theorems: reconciliation, frame effects, guards -/

/-- C3: Reconciliation/dedup merge is idempotent: an incoming realtime
message whose id already exists locally leaves the list unchanged; a novel
id appends exactly one entry.  In particular the insert event echoed for
this client's own draft (already in the list) never duplicates it. -/
theorem reconciliation_merge_idempotent (prev : List Message) (newMessage : Message) :
    ((prev.any (fun m => m.id == newMessage.id)) = true →
       mergeInsertMessage prev newMessage = prev) ∧
    ((prev.any (fun m => m.id == newMessage.id)) = false →
       mergeInsertMessage prev newMessage = prev ++ [newMessage] ∧
       (mergeInsertMessage prev newMessage).length = prev.length + 1) := by
  constructor
  · intro h
    simp [mergeInsertMessage, h]
  · intro h
    simp [mergeInsertMessage, h]

def c3Msg : Message := mkInsertedMessage "c1" "assistant" "Hello" "text" "m1" "t1"

theorem reconciliation_merge_idempotent_witness :
    ([c3Msg].any (fun m => m.id == c3Msg.id) = true ∧
      mergeInsertMessage [c3Msg] c3Msg = [c3Msg]) ∧
    (([] : List Message).any (fun m => m.id == c3Msg.id) = false ∧
      mergeInsertMessage [] c3Msg = [] ++ [c3Msg]) :=
  ⟨⟨rfl, (reconciliation_merge_idempotent [c3Msg] c3Msg).1 rfl⟩,
   ⟨rfl, ((reconciliation_merge_idempotent [] c3Msg).2 rfl).1⟩⟩

/-- C9: frame property of `updateMessageContent` on the local message
list: on a successful database write only the `content` of the matching
message changes — every other field (including the local `metadata` draft
marker, cleared only in the database row) and every other message are
untouched; on a failed database write the local list (and the database)
are not modified at all. -/
theorem updateMessageContent_local_frame (dbOk : Bool) (db msgs : List Message)
    (messageId content : String) :
    ((updateMessageContent dbOk db msgs messageId content).2.1.length = msgs.length) ∧
    (∀ (k : Nat) (m m' : Message), msgs[k]? = some m →
       (updateMessageContent dbOk db msgs messageId content).2.1[k]? = some m' →
       m'.id = m.id ∧ m'.role = m.role ∧ m'.conversation_id = m.conversation_id ∧
       m'.content_type = m.content_type ∧ m'.created_at = m.created_at ∧
       m'.metadata = m.metadata ∧
       (m.id ≠ messageId → m' = m) ∧
       (dbOk = true → m.id = messageId → m'.content = content)) ∧
    (dbOk = false →
       (updateMessageContent dbOk db msgs messageId content).2.1 = msgs ∧
       (updateMessageContent dbOk db msgs messageId content).1 = db) ∧
    (dbOk = true → ∀ (k : Nat) (m m' : Message), db[k]? = some m →
       (updateMessageContent dbOk db msgs messageId content).1[k]? = some m' →
       m.id = messageId → m'.metadata = none) := by
  cases dbOk with
  | false =>
    have hu : updateMessageContent false db msgs messageId content =
        (db, msgs, false) := rfl
    rw [hu]
    refine ⟨rfl, ?_, fun _ => ⟨rfl, rfl⟩, fun h => absurd h (by decide)⟩
    intro k m m' h1 h2
    rw [h1] at h2
    obtain rfl := Option.some_inj.mp h2
    exact ⟨rfl, rfl, rfl, rfl, rfl, rfl, fun _ => rfl, fun h => absurd h (by decide)⟩
  | true =>
    have hu : updateMessageContent true db msgs messageId content =
        (dbFinalize db messageId content, localSetContent msgs messageId content, true) := rfl
    rw [hu]
    refine ⟨by simp [localSetContent], ?_, fun h => absurd h (by decide), ?_⟩
    · intro k m m' h1 h2
      unfold localSetContent at h2
      rw [List.getElem?_map, h1] at h2
      simp only [Option.map_some'] at h2
      obtain rfl := Option.some_inj.mp h2
      by_cases hid : m.id = messageId
      · have hb : (m.id == messageId) = true := beq_iff_eq.mpr hid
        simp [hb, hid]
      · have hb : (m.id == messageId) = false := beq_eq_false_iff_ne.mpr hid
        simp [hb, hid]
    · intro _ k m m' h1 h2 hid
      unfold dbFinalize at h2
      rw [List.getElem?_map, h1] at h2
      simp only [Option.map_some'] at h2
      obtain rfl := Option.some_inj.mp h2
      have hb : (m.id == messageId) = true := beq_iff_eq.mpr hid
      simp only [hb, if_pos]

def c9Draft : Message := mkDraftMessage "c1" "m1" "t0"

theorem updateMessageContent_local_frame_witness :
    ([c9Draft][0]? = some c9Draft) ∧
    ((updateMessageContent true [c9Draft] [c9Draft] "m1" "Hi").2.1[0]? =
      some { c9Draft with content := "Hi" }) ∧
    ({ c9Draft with content := "Hi" } : Message).metadata = c9Draft.metadata :=
  ⟨rfl, rfl,
   ((updateMessageContent_local_frame true [c9Draft] [c9Draft] "m1" "Hi").2.1
      0 c9Draft { c9Draft with content := "Hi" } rfl rfl).2.2.2.2.2.1⟩

/-- C8: defensive serialization of sends: invoking the send action while
the streaming flag is up is a no-op — no user message persisted, no draft
created, no network call, no state change — so a second stream session is
never started while one is active. -/
theorem send_guard_serializes (env : SendEnv) (h : env.isStreaming0 = true) :
    (runSend env).userInsertCalled = false ∧
    (runSend env).draftInsertCalled = false ∧
    (runSend env).networkCalled = false ∧
    (runSend env).finalizeCalls = 0 ∧
    (runSend env).db = env.initDb ∧
    (runSend env).messages = env.initMessages := by
  simp [runSend, h, sendNoOp]

def baseSendEnv : SendEnv :=
  { isStreaming0 := false
    streamingId0 := none
    currentConversationId := some "c1"
    createConversationId := none
    content := "hello"
    userInsertRow := some ("u1", "t1")
    draftInsertRow := some ("d1", "t2")
    fetchResult := .httpRes 200 true []
    cancelAtChunk := none
    finalizeDbOk := true
    initDb := []
    initMessages := [] }

theorem send_guard_serializes_witness :
    ({ baseSendEnv with isStreaming0 := true } : SendEnv).isStreaming0 = true ∧
    (runSend { baseSendEnv with isStreaming0 := true }).networkCalled = false :=
  ⟨rfl, (send_guard_serializes { baseSendEnv with isStreaming0 := true } rfl).2.2.1⟩

/-- C10: the streaming guard is one client-wide flag, not per-conversation:
while it is up, both the send action and the image-request action are
no-ops for every conversation (both environments range over arbitrary
conversation ids), so at most one stream session is active across the
entire client. -/
theorem streaming_guard_is_client_wide (se : SendEnv) (ie : ImageEnv)
    (hs : se.isStreaming0 = true) (hi : ie.isStreaming0 = true) :
    ((runSend se).userInsertCalled = false ∧
     (runSend se).draftInsertCalled = false ∧
     (runSend se).networkCalled = false ∧
     (runSend se).db = se.initDb ∧
     (runSend se).messages = se.initMessages) ∧
    ((runImage ie).userInsertCalled = false ∧
     (runImage ie).invokeCalled = false ∧
     (runImage ie).assistantInsertCalled = false ∧
     (runImage ie).db = ie.initDb ∧
     (runImage ie).messages = ie.initMessages) := by
  constructor
  · simp [runSend, hs, sendNoOp]
  · simp [runImage, hi, imageNoOp]

def baseImageEnv : ImageEnv :=
  { isStreaming0 := true
    currentConversationId := some "c2"
    createConversationId := none
    prompt := "a cat"
    userInsertRow := some ("u2", "t3")
    invokeResult := some (some "https://img")
    assistantInsertRow := some ("a2", "t4")
    initDb := []
    initMessages := [] }

theorem streaming_guard_is_client_wide_witness :
    ({ baseSendEnv with isStreaming0 := true } : SendEnv).isStreaming0 = true ∧
    baseImageEnv.isStreaming0 = true ∧
    (runSend { baseSendEnv with isStreaming0 := true }).networkCalled = false ∧
    (runImage baseImageEnv).invokeCalled = false :=
  ⟨rfl, rfl,
   (streaming_guard_is_client_wide { baseSendEnv with isStreaming0 := true }
      baseImageEnv rfl rfl).1.2.2.1,
   (streaming_guard_is_client_wide { baseSendEnv with isStreaming0 := true }
      baseImageEnv rfl rfl).2.2.1⟩

/-! ## Delta Accumulator -/

lemma accumulate_data_aux (D : List String) :
    ∀ acc : String,
      (D.foldl (fun a d => a ++ d) acc).data = acc.data ++ (D.map String.data).flatten := by
  induction D with
  | nil => intro acc; simp
  | cons d D ih =>
    intro acc
    simp only [List.foldl_cons, List.map_cons, List.flatten_cons]
    rw [ih (acc ++ d), String.data_append, List.append_assoc]

lemma accumulate_data (D : List String) :
    (accumulate D).data = (D.map String.data).flatten := by
  unfold accumulate
  rw [accumulate_data_aux]
  rfl

lemma accumulate_length_aux (D : List String) :
    ∀ acc : String,
      (D.foldl (fun a d => a ++ d) acc).length = acc.length + (D.map String.length).sum := by
  induction D with
  | nil => intro acc; simp
  | cons d D ih =>
    intro acc
    simp only [List.foldl_cons, List.map_cons, List.sum_cons]
    rw [ih (acc ++ d), String.length_append]
    omega

lemma accumulate_length (D : List String) :
    (accumulate D).length = (D.map String.length).sum := by
  unfold accumulate
  rw [accumulate_length_aux]
  simp

lemma accumulate_take_mono (D : List String) (i j : Nat) (h : i ≤ j) :
    (accumulate (D.take i)).length ≤ (accumulate (D.take j)).length := by
  rw [accumulate_length, accumulate_length]
  rw [show D.take j = D.take i ++ (D.drop i).take (j - i) by
        rw [← List.take_add]; congr 1; omega]
  rw [List.map_append, List.sum_append]
  omega

set_option maxHeartbeats 1000000 in
lemma runSend_fullContent_eq (env : SendEnv) :
    (runSend env).fullContent = accumulate (runSend env).deltas := by
  unfold runSend normalEndStep
  repeat' split <;> try rfl
  all_goals
    simp only []
    split <;> rfl

/-- C7: Delta Accumulator correctness: the accumulated full content is the
exact in-order concatenation of the deltas — no separators, no
normalization, no trimming — and consequently the running text length is
monotonically non-decreasing as deltas arrive; the streaming controller's
`fullContent` is exactly the accumulation of its delta sequence. -/
theorem delta_accumulator_exact_concatenation (env : SendEnv) (D : List String)
    (i j : Nat) (hij : i ≤ j) :
    ((accumulate D).data = (D.map String.data).flatten) ∧
    ((accumulate (D.take i)).length ≤ (accumulate (D.take j)).length) ∧
    ((runSend env).fullContent = accumulate (runSend env).deltas) :=
  ⟨accumulate_data D, accumulate_take_mono D i j hij, runSend_fullContent_eq env⟩

theorem delta_accumulator_exact_concatenation_witness :
    1 ≤ 2 ∧
    ((accumulate ["Hel", "lo"]).data = ((["Hel", "lo"] : List String).map String.data).flatten ∧
     (accumulate (["Hel", "lo"].take 1)).length ≤ (accumulate (["Hel", "lo"].take 2)).length ∧
     (runSend baseSendEnv).fullContent = accumulate (runSend baseSendEnv).deltas) :=
  ⟨by decide, delta_accumulator_exact_concatenation baseSendEnv ["Hel", "lo"] 1 2 (by decide)⟩

/-! ## Reductions of `runSend` under fixed collaborator verdicts -/

lemma runSend_normal_eq (env : SendEnv) (convId did dts : String) (status : Nat)
    (chunks : List (List Char))
    (hstream : env.isStreaming0 = false)
    (hconv : (match env.currentConversationId with
              | some c => some c
              | none => env.createConversationId) = some convId)
    (hdraft : env.draftInsertRow = some (did, dts))
    (hfetch : env.fetchResult = .httpRes status true chunks)
    (hst1 : 200 ≤ status) (hst2 : status < 300)
    (hcancel : env.cancelAtChunk = none) :
    runSend env =
      normalEndStep env.finalizeDbOk (sendStreamState env convId did dts) did chunks := by
  unfold runSend
  simp [hstream, hconv, hdraft, hfetch, hcancel, hst1, hst2, cancelHits]

lemma runSend_cancel0_eq (env : SendEnv) (convId did dts : String)
    (hstream : env.isStreaming0 = false)
    (hconv : (match env.currentConversationId with
              | some c => some c
              | none => env.createConversationId) = some convId)
    (hdraft : env.draftInsertRow = some (did, dts))
    (hc0 : env.cancelAtChunk = some 0) :
    runSend env = { sendStreamState env convId did dts with abortErrorCaught := true } := by
  unfold runSend
  simp [hstream, hconv, hdraft, hc0]

lemma runSend_cancel_mid_eq (env : SendEnv) (convId did dts : String) (status : Nat)
    (chunks : List (List Char)) (i : Nat)
    (hstream : env.isStreaming0 = false)
    (hconv : (match env.currentConversationId with
              | some c => some c
              | none => env.createConversationId) = some convId)
    (hdraft : env.draftInsertRow = some (did, dts))
    (hfetch : env.fetchResult = .httpRes status true chunks)
    (hst1 : 200 ≤ status) (hst2 : status < 300)
    (hc : env.cancelAtChunk = some i) (hi0 : i ≠ 0) (hlen : i ≤ chunks.length) :
    runSend env =
      { sendStreamState env convId did dts with
        deltas := (parseSSE (chunks.take i)).map (fun d => String.mk d)
        fullContent := accumulate ((parseSSE (chunks.take i)).map (fun d => String.mk d))
        abortErrorCaught := true } := by
  unfold runSend
  simp [hstream, hconv, hdraft, hfetch, hc, hi0, hst1, hst2, cancelHits, hlen]

lemma runSend_draft_failure_eq (env : SendEnv) (convId : String)
    (hstream : env.isStreaming0 = false)
    (hconv : (match env.currentConversationId with
              | some c => some c
              | none => env.createConversationId) = some convId)
    (hdraft : env.draftInsertRow = none) :
    runSend env = { sendUserState env convId with toasts := [toastDraftError] } := by
  unfold runSend
  simp [hstream, hconv, hdraft]

lemma dbFinalize_concat (db : List Message) (m : Message) (mid c : String) :
    dbFinalize (db ++ [m]) mid c =
      dbFinalize db mid c ++
        [if m.id == mid then { m with content := c, metadata := none } else m] := by
  simp [dbFinalize]

/-- C2: finalization on normal stream end: with a non-empty accumulated
content, exactly one persistence update runs, writing the final content and
clearing the draft marker in that same single call; with empty accumulated
content no persistence write occurs and the draft row keeps its empty
content and draft marker. -/
theorem finalization_on_normal_end (env : SendEnv) (convId did dts : String)
    (status : Nat) (chunks : List (List Char))
    (hstream : env.isStreaming0 = false)
    (hconv : (match env.currentConversationId with
              | some c => some c
              | none => env.createConversationId) = some convId)
    (hdraft : env.draftInsertRow = some (did, dts))
    (hfetch : env.fetchResult = .httpRes status true chunks)
    (hst1 : 200 ≤ status) (hst2 : status < 300)
    (hcancel : env.cancelAtChunk = none) :
    ((runSend env).fullContent ≠ "" →
       (runSend env).finalizeCalls = 1 ∧
       (env.finalizeDbOk = true →
          (runSend env).db.getLast? =
            some { mkDraftMessage convId did dts with
                     content := (runSend env).fullContent, metadata := none })) ∧
    ((runSend env).fullContent = "" →
       (runSend env).finalizeCalls = 0 ∧
       (runSend env).db.getLast? = some (mkDraftMessage convId did dts) ∧
       (mkDraftMessage convId did dts).content = "" ∧
       isDraftMarked (mkDraftMessage convId did dts) = true) := by
  rw [runSend_normal_eq env convId did dts status chunks hstream hconv hdraft hfetch
        hst1 hst2 hcancel]
  unfold normalEndStep
  simp only []
  by_cases hfull : accumulate ((parseSSE chunks).map (fun d => String.mk d)) = ""
  · rw [if_neg (by simpa using hfull)]
    constructor
    · intro hne
      exact absurd hfull hne
    · intro _
      refine ⟨rfl, ?_, rfl, rfl⟩
      show (sendStreamState env convId did dts).db.getLast? =
        some (mkDraftMessage convId did dts)
      unfold sendStreamState
      simp only []
      exact List.getLast?_concat _
  · rw [if_pos (by simpa using hfull)]
    constructor
    · intro _
      refine ⟨rfl, ?_⟩
      intro hdbOk
      rw [hdbOk]
      show (updateMessageContent true (sendStreamState env convId did dts).db
              (sendStreamState env convId did dts).messages did
              (accumulate ((parseSSE chunks).map (fun d => String.mk d)))).1.getLast? = _
      have hu : ∀ db msgs mid c, (updateMessageContent true db msgs mid c).1 =
          dbFinalize db mid c := fun _ _ _ _ => rfl
      rw [hu]
      have hdb : (sendStreamState env convId did dts).db =
          (afterUserInsert env convId).1 ++ [mkDraftMessage convId did dts] := rfl
      rw [hdb, dbFinalize_concat, List.getLast?_concat]
      have hid : ((mkDraftMessage convId did dts).id == did) = true := by
        simp [mkDraftMessage]
      rw [if_pos hid]
    · intro habs
      exact absurd habs hfull

/-- The spec's end-to-end scenario: `"Hel"`, `"lo"`, `[DONE]` finalizes
`"Hello"`. -/
def c2Env : SendEnv :=
  { baseSendEnv with
    fetchResult := .httpRes 200 true
      ["data: \x7b\"choices\":[\x7b\"delta\":\x7b\"content\":\"Hel\"\x7d\x7d]\x7d\n".toList,
       "data: \x7b\"choices\":[\x7b\"delta\":\x7b\"content\":\"lo\"\x7d\x7d]\x7d\n".toList,
       "data: [DONE]\n".toList] }

theorem finalization_on_normal_end_witness :
    (runSend c2Env).fullContent = "Hello" ∧
    (runSend c2Env).finalizeCalls = 1 ∧
    (runSend c2Env).db.getLast? =
      some { mkDraftMessage "c1" "d1" "t2" with
               content := (runSend c2Env).fullContent, metadata := none } := by
  refine ⟨by decide, ?_, ?_⟩
  · exact ((finalization_on_normal_end c2Env "c1" "d1" "t2" 200 _
      rfl rfl rfl rfl (by decide) (by decide) rfl).1 (by decide)).1
  · exact ((finalization_on_normal_end c2Env "c1" "d1" "t2" 200 _
      rfl rfl rfl rfl (by decide) (by decide) rfl).1 (by decide)).2 rfl

/-- C4: cancellation at any point during streaming (while the fetch is
pending, or after any number of completed reads) surfaces as an
`AbortError` — the request is aborted — no finalize persistence write is
issued, and the controller lands back in the idle state (streaming flag
down, no streaming id, no abort handle) ready for a new send; the cancel
operation itself is idempotent and a no-op on an already-finished session
(no installed controller). -/
theorem cancellation_aborts_without_finalize (env : SendEnv)
    (convId did dts : String) (i : Nat)
    (hstream : env.isStreaming0 = false)
    (hconv : (match env.currentConversationId with
              | some c => some c
              | none => env.createConversationId) = some convId)
    (hdraft : env.draftInsertRow = some (did, dts))
    (hc : env.cancelAtChunk = some i)
    (heff : i = 0 ∨ ∃ status chunks,
        env.fetchResult = .httpRes status true chunks ∧
        200 ≤ status ∧ status < 300 ∧ i ≤ chunks.length) :
    ((runSend env).abortErrorCaught = true ∧
     (runSend env).finalizeCalls = 0 ∧
     (runSend env).isStreamingFinal = false ∧
     (runSend env).streamingIdFinal = none ∧
     (runSend env).abortRefSet = false) ∧
    (∀ r : AbortRefState, cancelRef (cancelRef r) = cancelRef r) ∧
    (∀ r : AbortRefState, r.ctrl = none → cancelRef r = r) := by
  refine ⟨?_, ?_, ?_⟩
  · rcases heff with hi0 | ⟨status, chunks, hfetch, hst1, hst2, hlen⟩
    · subst hi0
      rw [runSend_cancel0_eq env convId did dts hstream hconv hdraft hc]
      exact ⟨rfl, rfl, rfl, rfl, rfl⟩
    · by_cases hi0 : i = 0
      · subst hi0
        rw [runSend_cancel0_eq env convId did dts hstream hconv hdraft hc]
        exact ⟨rfl, rfl, rfl, rfl, rfl⟩
      · rw [runSend_cancel_mid_eq env convId did dts status chunks i hstream hconv
              hdraft hfetch hst1 hst2 hc hi0 hlen]
        exact ⟨rfl, rfl, rfl, rfl, rfl⟩
  · intro r
    cases r with
    | mk ctrl => cases ctrl <;> rfl
  · intro r h
    simp [cancelRef, h]

def c4Env : SendEnv := { baseSendEnv with cancelAtChunk := some 0 }

theorem cancellation_aborts_without_finalize_witness :
    c4Env.cancelAtChunk = some 0 ∧
    (runSend c4Env).abortErrorCaught = true ∧
    (runSend c4Env).finalizeCalls = 0 ∧
    (runSend c4Env).isStreamingFinal = false ∧
    cancelRef (cancelRef ⟨some false⟩) = cancelRef ⟨some false⟩ ∧
    cancelRef ⟨none⟩ = (⟨none⟩ : AbortRefState) := by
  have h := cancellation_aborts_without_finalize c4Env "c1" "d1" "t2" 0
    rfl rfl rfl rfl (Or.inl rfl)
  exact ⟨rfl, h.1.1, h.1.2.1, h.1.2.2.1, h.2.1 ⟨some false⟩, h.2.2 ⟨none⟩ rfl⟩

/-! ## C5: persistence failure before the network call -/

/-- C5 counterexample: a failed user-message insert does **not** abort the
send attempt — with the user insert failing and the draft insert
succeeding, the network call is still made (the source never checks
`addMessage`'s result). -/
theorem user_insert_failure_does_not_abort_send :
    ({ baseSendEnv with userInsertRow := none } : SendEnv).userInsertRow = none ∧
    (runSend { baseSendEnv with userInsertRow := none }).networkCalled = true ∧
    (runSend { baseSendEnv with userInsertRow := none }).toasts = [] := by
  refine ⟨rfl, by decide, by decide⟩

lemma runSend_networkCalled_after_draft (env : SendEnv) (convId did dts : String)
    (hstream : env.isStreaming0 = false)
    (hconv : (match env.currentConversationId with
              | some c => some c
              | none => env.createConversationId) = some convId)
    (hdraft : env.draftInsertRow = some (did, dts)) :
    (runSend env).networkCalled = true := by
  unfold runSend normalEndStep
  simp only [hstream, hconv, hdraft, Bool.false_eq_true, if_false]
  repeat' split <;> try rfl

/-- C5 amended: only a failure to persist the **assistant draft** aborts
the send before any network call (surfaced as an error toast); a failure
to persist the user's message is ignored — its result is never checked —
and the send proceeds to the network call. -/
theorem draft_failure_aborts_send_user_failure_ignored
    (env env' : SendEnv) (convId convId' did' dts' : String)
    (hstream : env.isStreaming0 = false)
    (hconv : (match env.currentConversationId with
              | some c => some c
              | none => env.createConversationId) = some convId)
    (hdraft : env.draftInsertRow = none)
    (hstream' : env'.isStreaming0 = false)
    (hconv' : (match env'.currentConversationId with
               | some c => some c
               | none => env'.createConversationId) = some convId')
    (huser' : env'.userInsertRow = none)
    (hdraft' : env'.draftInsertRow = some (did', dts')) :
    ((runSend env).networkCalled = false ∧
     (runSend env).finalizeCalls = 0 ∧
     (runSend env).toasts = [toastDraftError] ∧
     (runSend env).isStreamingFinal = false) ∧
    (runSend env').networkCalled = true := by
  constructor
  · rw [runSend_draft_failure_eq env convId hstream hconv hdraft]
    exact ⟨rfl, rfl, rfl, rfl⟩
  · exact runSend_networkCalled_after_draft env' convId' did' dts' hstream' hconv' hdraft'

theorem draft_failure_aborts_send_user_failure_ignored_witness :
    ({ baseSendEnv with draftInsertRow := none } : SendEnv).draftInsertRow = none ∧
    ({ baseSendEnv with userInsertRow := none } : SendEnv).userInsertRow = none ∧
    (runSend { baseSendEnv with draftInsertRow := none }).networkCalled = false ∧
    (runSend { baseSendEnv with userInsertRow := none }).networkCalled = true := by
  have h := draft_failure_aborts_send_user_failure_ignored
    { baseSendEnv with draftInsertRow := none }
    { baseSendEnv with userInsertRow := none }
    "c1" "c1" "d1" "t2" rfl rfl rfl rfl rfl rfl rfl
  exact ⟨rfl, rfl, h.1.1, h.2⟩

/-! ## C6: Render Scheduler -/

lemma schedRunState_ticks_idle (post : List SchedEvent) :
    ∀ s : SchedState, (∀ x ∈ post, x = .tick) → s.rafPending = false →
      schedRunState s post = s := by
  induction post with
  | nil => intro s _ _; rfl
  | cons e rest ih =>
    intro s hall hp
    have he : e = .tick := hall e (by simp)
    subst he
    unfold schedRunState
    simp only [List.foldl_cons]
    have hstep : (schedStep s .tick).1 = s := by
      unfold schedStep
      rw [hp]
      simp
    rw [hstep]
    exact ih s (fun x hx => hall x (by simp [hx])) hp

lemma schedRunState_ticks_apply (post : List SchedEvent) (s : SchedState)
    (hall : ∀ x ∈ post, x = .tick) (hne : post ≠ [])
    (hp : s.rafPending = true) :
    (schedRunState s post).displayed = s.latest := by
  cases post with
  | nil => exact absurd rfl hne
  | cons e rest =>
    have he : e = .tick := hall e (by simp)
    subst he
    unfold schedRunState
    simp only [List.foldl_cons]
    have hstep : (schedStep s .tick).1 =
        { s with rafPending := false, displayed := s.latest } := by
      unfold schedStep
      rw [hp]
      simp
    rw [hstep]
    have := schedRunState_ticks_idle rest
      { s with rafPending := false, displayed := s.latest }
      (fun x hx => hall x (by simp [hx])) rfl
    unfold schedRunState at this
    rw [this]

/-- C6 (amended): the Render Scheduler applies at most one UI write per
event — exactly zero on a content update, at most one on a display-frame
tick — and the last value supplied before a quiet period is the displayed
value once any tick fires (no starvation); on normal session end the
apply that bypasses the scheduler (`updateMessageContent`'s direct local
write) is performed iff the accumulated content is non-empty and the
finalize persistence write succeeds. -/
theorem render_scheduler_coalescing_and_final_apply
    (s : SchedState) (e : SchedEvent) (v : String) (post : List SchedEvent)
    (env : SendEnv) (convId did dts : String) (status : Nat)
    (chunks : List (List Char))
    (hall : ∀ x ∈ post, x = SchedEvent.tick) (hne : post ≠ [])
    (hstream : env.isStreaming0 = false)
    (hconv : (match env.currentConversationId with
              | some c => some c
              | none => env.createConversationId) = some convId)
    (hdraft : env.draftInsertRow = some (did, dts))
    (hfetch : env.fetchResult = .httpRes status true chunks)
    (hst1 : 200 ≤ status) (hst2 : status < 300)
    (hcancel : env.cancelAtChunk = none) :
    ((schedStep s e).2 ≤ 1) ∧
    (∀ w, e = .upd w → (schedStep s e).2 = 0) ∧
    ((schedRunState (schedStep s (.upd v)).1 post).displayed = v) ∧
    ((runSend env).localFinalApplied = true ↔
       ((runSend env).fullContent ≠ "" ∧ env.finalizeDbOk = true)) := by
  refine ⟨?_, ?_, ?_, ?_⟩
  · cases e with
    | upd w => exact Nat.zero_le 1
    | tick =>
      cases hp : s.rafPending <;> simp [schedStep, hp]
  · intro w hw
    subst hw
    rfl
  · have h1 : (schedStep s (.upd v)).1 =
        { s with latest := v, rafPending := true } := rfl
    rw [h1, schedRunState_ticks_apply post _ hall hne rfl]
  · rw [runSend_normal_eq env convId did dts status chunks hstream hconv hdraft
        hfetch hst1 hst2 hcancel]
    unfold normalEndStep
    simp only []
    by_cases hfull : accumulate ((parseSSE chunks).map (fun d => String.mk d)) = ""
    · rw [if_neg (by simpa using hfull)]
      constructor
      · intro habs
        simp [sendStreamState, sendUserState, sendNoOp] at habs
      · intro ⟨habs, _⟩
        exact absurd hfull habs
    · rw [if_pos (by simpa using hfull)]
      cases hdb : env.finalizeDbOk with
      | true =>
        constructor
        · intro _
          exact ⟨hfull, rfl⟩
        · intro _
          rfl
      | false =>
        constructor
        · intro habs
          simp [updateMessageContent] at habs
        · intro ⟨_, habs⟩
          exact absurd habs (by simp)

/-- C6 counterexample: a session that ends normally with non-empty content
but whose finalize write fails performs **no** final apply — the
session-end apply is conditional, not unconditional. -/
def c6Env : SendEnv :=
  { baseSendEnv with
    fetchResult := .httpRes 200 true
      ["data: \x7b\"choices\":[\x7b\"delta\":\x7b\"content\":\"Hi\"\x7d\x7d]\x7d\n".toList]
    finalizeDbOk := false }

theorem final_apply_is_conditional_counterexample :
    (runSend c6Env).fullContent = "Hi" ∧
    (runSend c6Env).abortErrorCaught = false ∧
    (runSend c6Env).finalizeCalls = 1 ∧
    (runSend c6Env).localFinalApplied = false := by
  refine ⟨by decide, by decide, by decide, by decide⟩

theorem render_scheduler_coalescing_and_final_apply_witness :
    ((∀ x ∈ [SchedEvent.tick], x = SchedEvent.tick) ∧
     ([SchedEvent.tick] : List SchedEvent) ≠ []) ∧
    ((schedRunState (schedStep ⟨"", false, ""⟩ (.upd "Hi")).1 [SchedEvent.tick]).displayed = "Hi" ∧
     ((runSend c2Env).localFinalApplied = true ↔
        ((runSend c2Env).fullContent ≠ "" ∧ c2Env.finalizeDbOk = true))) := by
  have h := render_scheduler_coalescing_and_final_apply
    ⟨"", false, ""⟩ SchedEvent.tick "Hi" [SchedEvent.tick]
    c2Env "c1" "d1" "t2" 200 _
    (by intro x hx; simpa using hx) (by simp)
    rfl rfl rfl rfl (by decide) (by decide) rfl
  exact ⟨⟨by intro x hx; simpa using hx, by simp⟩, h.2.2.1, h.2.2.2⟩

end NovaChat
